import Mathlib

/-!
Verification development for the SimplePFBot repository.

The definitions below are a shallow embedding of the Python sources:
`src/scrape.py` (domain model, extraction, filtering) and `src/bot.py`
(roster rendering and digest/embed composition).  Python enums become
inductive types, the polymorphic "enum or raw string" values produced by
the tolerant extractor become sum-like inductives, the `dict.get`
lookups become total Lean functions, and `discord.Embed` is modelled as
a record of the pieces that `len(embed)` counts (title, description,
field name/value pairs, footer text), with `len` over Python strings
modelled by `String.length` (Unicode code points).
-/

/-- `SlotState` enum from src/scrape.py. -/
inductive SlotState where
  | FILLED
  | OPEN
deriving DecidableEq, Repr

/-- `SlotType` enum from src/scrape.py. -/
inductive SlotType where
  | DPS
  | HEALER
  | TANK
  | OTHER
deriving DecidableEq, Repr, Fintype

/-- `DutyType` enum from src/scrape.py. -/
inductive DutyType where
  | CROSS
  | LOCAL
deriving DecidableEq, Repr

/-- `RoleType` enum from src/scrape.py. -/
inductive RoleType where
  | TANK
  | REGEN_HEALER
  | SHIELD_HEALER
  | MELEE_DPS
  | RANGED_DPS
  | MAGICAL_DPS
  | OTHER
deriving DecidableEq, Repr, Fintype

/-- `Role` enum from src/scrape.py: the closed set of known job codes. -/
inductive Role where
  | GLA | PGL | MRD | LNC | ARC | CNJ | THM
  | PLD | MNK | WAR | DRG | BRD | WHM | BLM
  | ACN | SMN | SCH | ROG | NIN | MCH | DRK
  | AST | SAM | RDM | BLU | GNB | DNC | RPR
  | SGE | VPR | PCT | BTN | MIN | FSH | CRP
  | BSM | ARM | GSM | LTW | WVR | ALC | CUL
deriving DecidableEq, Repr, Fintype

/-- The extractor (src/scrape.py, `scrape_listings`) appends either a
`Role` member or, for an unrecognized token, the raw string itself to a
slot's role list.  This sum models that polymorphic value. -/
inductive RoleOrRaw where
  | known (r : Role)
  | raw (s : String)
deriving DecidableEq, Repr

/-- The `role_to_type` dict of `Role.get_role_type` in src/scrape.py,
as a total function on the known roles (the dict has an entry for every
member of the `Role` enum). -/
def Role.get_role_type : Role → RoleType
  | .GLA => .TANK
  | .PLD => .TANK
  | .MRD => .TANK
  | .WAR => .TANK
  | .DRK => .TANK
  | .GNB => .TANK
  | .CNJ => .REGEN_HEALER
  | .WHM => .REGEN_HEALER
  | .SCH => .SHIELD_HEALER
  | .AST => .REGEN_HEALER
  | .SGE => .SHIELD_HEALER
  | .PGL => .MELEE_DPS
  | .MNK => .MELEE_DPS
  | .LNC => .MELEE_DPS
  | .DRG => .MELEE_DPS
  | .ARC => .RANGED_DPS
  | .BRD => .RANGED_DPS
  | .THM => .MAGICAL_DPS
  | .BLM => .MAGICAL_DPS
  | .ACN => .MAGICAL_DPS
  | .SMN => .MAGICAL_DPS
  | .ROG => .MELEE_DPS
  | .NIN => .MELEE_DPS
  | .MCH => .RANGED_DPS
  | .SAM => .MELEE_DPS
  | .RDM => .MAGICAL_DPS
  | .BLU => .MAGICAL_DPS
  | .DNC => .RANGED_DPS
  | .RPR => .MELEE_DPS
  | .VPR => .MELEE_DPS
  | .PCT => .MAGICAL_DPS
  | .BTN => .OTHER
  | .MIN => .OTHER
  | .FSH => .OTHER
  | .CRP => .OTHER
  | .BSM => .OTHER
  | .ARM => .OTHER
  | .GSM => .OTHER
  | .LTW => .OTHER
  | .WVR => .OTHER
  | .ALC => .OTHER
  | .CUL => .OTHER

/-- The `role_to_slot` dict of `Role.get_slot_type` in src/scrape.py. -/
def Role.get_slot_type : Role → SlotType
  | .GLA => .TANK
  | .PLD => .TANK
  | .MRD => .TANK
  | .WAR => .TANK
  | .DRK => .TANK
  | .GNB => .TANK
  | .CNJ => .HEALER
  | .WHM => .HEALER
  | .SCH => .HEALER
  | .AST => .HEALER
  | .SGE => .HEALER
  | .PGL => .DPS
  | .MNK => .DPS
  | .LNC => .DPS
  | .DRG => .DPS
  | .ARC => .DPS
  | .BRD => .DPS
  | .THM => .DPS
  | .BLM => .DPS
  | .ACN => .DPS
  | .SMN => .DPS
  | .ROG => .DPS
  | .NIN => .DPS
  | .MCH => .DPS
  | .SAM => .DPS
  | .RDM => .DPS
  | .BLU => .DPS
  | .DNC => .DPS
  | .RPR => .DPS
  | .VPR => .DPS
  | .PCT => .DPS
  | .BTN => .OTHER
  | .MIN => .OTHER
  | .FSH => .OTHER
  | .CRP => .OTHER
  | .BSM => .OTHER
  | .ARM => .OTHER
  | .GSM => .OTHER
  | .LTW => .OTHER
  | .WVR => .OTHER
  | .ALC => .OTHER
  | .CUL => .OTHER

/-- `role_to_type.get(self, RoleType.OTHER)`: the lookup the source
performs, applied to an arbitrary role-or-raw value.  A raw string is
never a key of the dict, so `dict.get` yields the `RoleType.OTHER`
default for it. -/
def RoleOrRaw.get_role_type : RoleOrRaw → RoleType
  | .known r => r.get_role_type
  | .raw _ => .OTHER

/-- `role_to_slot.get(self, SlotType.OTHER)` applied to an arbitrary
role-or-raw value; a raw string falls to the `SlotType.OTHER` default. -/
def RoleOrRaw.get_slot_type : RoleOrRaw → SlotType
  | .known r => r.get_slot_type
  | .raw _ => .OTHER

/-- `DataCentre` enum from src/scrape.py. -/
inductive DataCentre where
  | CRYSTAL | DYNAMIS | LIGHT | MATERIA | GAIA | METEOR
  | CHAOS | PRIMAL | ELEMENTAL | MANA | AETHER
deriving DecidableEq, Repr

/-- `PfCategory` enum from src/scrape.py. -/
inductive PfCategory where
  | RAIDS | DUTY_ROULETTE | GATHERING_FORAYS | NONE | DEEP_DUNGEONS
  | FATES | V_AND_C_DUNGEON_FINDER | DUNGEONS | TREASURE_HUNT | THE_HUNT
  | PVP | HIGH_END_DUTY | TRIALS | ADVENTURING_FORAYS | GUILDHESTS
  | GOLD_SAUCER
deriving DecidableEq, Repr

/-- `scrape_listings` keeps the raw tag string when it is not a value
of the `DataCentre` enum; the listing's field is enum-or-string. -/
inductive DataCentreOrRaw where
  | known (dc : DataCentre)
  | raw (s : String)
deriving DecidableEq, Repr

/-- Same raw-string fallback for the `data-pf-category` attribute. -/
inductive PfCategoryOrRaw where
  | known (c : PfCategory)
  | raw (s : String)
deriving DecidableEq, Repr

/-- `DataCentre(data_centre_str)` guarded by the membership test over
`DataCentre.__members__.values()`: the `.value` strings of the enum. -/
def dataCentreOfString : String → Option DataCentre
  | "Crystal" => some .CRYSTAL
  | "Dynamis" => some .DYNAMIS
  | "Light" => some .LIGHT
  | "Materia" => some .MATERIA
  | "Gaia" => some .GAIA
  | "Meteor" => some .METEOR
  | "Chaos" => some .CHAOS
  | "Primal" => some .PRIMAL
  | "Elemental" => some .ELEMENTAL
  | "Mana" => some .MANA
  | "Aether" => some .AETHER
  | _ => none

/-- `PfCategory(pf_category_str)` guarded by the membership test over
the enum's `.value` strings. -/
def pfCategoryOfString : String → Option PfCategory
  | "Raids" => some .RAIDS
  | "DutyRoulette" => some .DUTY_ROULETTE
  | "GatheringForays" => some .GATHERING_FORAYS
  | "None" => some .NONE
  | "DeepDungeons" => some .DEEP_DUNGEONS
  | "Fates" => some .FATES
  | "V&C Dungeon Finder" => some .V_AND_C_DUNGEON_FINDER
  | "Dungeons" => some .DUNGEONS
  | "TreasureHunt" => some .TREASURE_HUNT
  | "TheHunt" => some .THE_HUNT
  | "Pvp" => some .PVP
  | "HighEndDuty" => some .HIGH_END_DUTY
  | "Trials" => some .TRIALS
  | "AdventuringForays" => some .ADVENTURING_FORAYS
  | "Guildhests" => some .GUILDHESTS
  | "GoldSaucer" => some .GOLD_SAUCER
  | _ => none

/-- `role_str in Role.__members__`: the member *names* of the `Role`
enum (which coincide with their `.value` strings). -/
def roleOfString : String → Option Role
  | "GLA" => some .GLA
  | "PGL" => some .PGL
  | "MRD" => some .MRD
  | "LNC" => some .LNC
  | "ARC" => some .ARC
  | "CNJ" => some .CNJ
  | "THM" => some .THM
  | "PLD" => some .PLD
  | "MNK" => some .MNK
  | "WAR" => some .WAR
  | "DRG" => some .DRG
  | "BRD" => some .BRD
  | "WHM" => some .WHM
  | "BLM" => some .BLM
  | "ACN" => some .ACN
  | "SMN" => some .SMN
  | "SCH" => some .SCH
  | "ROG" => some .ROG
  | "NIN" => some .NIN
  | "MCH" => some .MCH
  | "DRK" => some .DRK
  | "AST" => some .AST
  | "SAM" => some .SAM
  | "RDM" => some .RDM
  | "BLU" => some .BLU
  | "GNB" => some .GNB
  | "DNC" => some .DNC
  | "RPR" => some .RPR
  | "SGE" => some .SGE
  | "VPR" => some .VPR
  | "PCT" => some .PCT
  | "BTN" => some .BTN
  | "MIN" => some .MIN
  | "FSH" => some .FSH
  | "CRP" => some .CRP
  | "BSM" => some .BSM
  | "ARM" => some .ARM
  | "GSM" => some .GSM
  | "LTW" => some .LTW
  | "WVR" => some .WVR
  | "ALC" => some .ALC
  | "CUL" => some .CUL
  | _ => none

/-- `PartySlot` dataclass from src/scrape.py. -/
structure PartySlot where
  state : SlotState
  slot_type : SlotType
  roles : List RoleOrRaw
deriving DecidableEq, Repr

/-- `Listing` dataclass from src/scrape.py. -/
structure Listing where
  duty_name : String
  duty_type : DutyType
  description : String
  party : List PartySlot
  filled : Int
  total : Int
  item_level : Int
  creator : String
  world : String
  expires : String
  updated : String
  data_centre : DataCentreOrRaw
  pf_category : PfCategoryOrRaw
deriving DecidableEq, Repr

/-- `filter_listings` from src/scrape.py: the list comprehension keeps
the listings whose `duty_name` equals the given name and whose
`data_centre` equals the given enum value. -/
def filter_listings (listings : List Listing) (duty_name : String)
    (data_centre : DataCentre) : List Listing :=
  listings.filter fun listing =>
    listing.duty_name == duty_name
      && listing.data_centre == DataCentreOrRaw.known data_centre

/-- `FilledSlotEmojiCollection` from src/config.py: one required glyph
attribute per combat job plus the catch-all `other`.  The
gatherer/crafter jobs (BTN..CUL) have no attribute in this class. -/
structure FilledSlotEmojiCollection where
  gla : String
  pgl : String
  mrd : String
  lnc : String
  arc : String
  cnj : String
  thm : String
  pld : String
  mnk : String
  war : String
  drg : String
  brd : String
  whm : String
  blm : String
  acn : String
  smn : String
  sch : String
  rog : String
  nin : String
  mch : String
  drk : String
  ast : String
  sam : String
  rdm : String
  blu : String
  gnb : String
  dnc : String
  rpr : String
  sge : String
  vpr : String
  pct : String
  other : String
deriving DecidableEq, Repr

/-- `getattr(self.embed_custom.filled_slots, role.value.lower(), ...)`
resolved per known role: `some` the attribute when the class declares
it, `none` (the getattr default) for the crafter/gatherer jobs, whose
lowercased codes are not attributes of `FilledSlotEmojiCollection`. -/
def FilledSlotEmojiCollection.attr
    (fs : FilledSlotEmojiCollection) : Role → Option String
  | .GLA => some fs.gla
  | .PGL => some fs.pgl
  | .MRD => some fs.mrd
  | .LNC => some fs.lnc
  | .ARC => some fs.arc
  | .CNJ => some fs.cnj
  | .THM => some fs.thm
  | .PLD => some fs.pld
  | .MNK => some fs.mnk
  | .WAR => some fs.war
  | .DRG => some fs.drg
  | .BRD => some fs.brd
  | .WHM => some fs.whm
  | .BLM => some fs.blm
  | .ACN => some fs.acn
  | .SMN => some fs.smn
  | .SCH => some fs.sch
  | .ROG => some fs.rog
  | .NIN => some fs.nin
  | .MCH => some fs.mch
  | .DRK => some fs.drk
  | .AST => some fs.ast
  | .SAM => some fs.sam
  | .RDM => some fs.rdm
  | .BLU => some fs.blu
  | .GNB => some fs.gnb
  | .DNC => some fs.dnc
  | .RPR => some fs.rpr
  | .SGE => some fs.sge
  | .VPR => some fs.vpr
  | .PCT => some fs.pct
  | .BTN | .MIN | .FSH | .CRP | .BSM | .ARM
  | .GSM | .LTW | .WVR | .ALC | .CUL => none

/-- `FreeSlotEmojiCollection` from src/config.py.  The slot-category
glyphs (`tank`, `healer`, `dps`), the pair/triple glyphs and `other`
are required; the per-job and per-role-category glyphs are optional. -/
structure FreeSlotEmojiCollection where
  tank : String
  gla : Option String
  mrd : Option String
  pld : Option String
  war : Option String
  drk : Option String
  gnb : Option String
  healer : String
  regen_healer : Option String
  cnj : Option String
  whm : Option String
  ast : Option String
  shield_healer : Option String
  sch : Option String
  sge : Option String
  dps : String
  melee_dps : Option String
  pgl : Option String
  lnc : Option String
  mnk : Option String
  drg : Option String
  rog : Option String
  nin : Option String
  sam : Option String
  rpr : Option String
  vpr : Option String
  ranged_dps : Option String
  arc : Option String
  brd : Option String
  mch : Option String
  dnc : Option String
  magical_dps : Option String
  thm : Option String
  blm : Option String
  acn : Option String
  smn : Option String
  rdm : Option String
  blu : Option String
  pct : Option String
  dps_healer : String
  dps_tank : String
  healer_tank : String
  dps_healer_tank : String
  other : String
deriving DecidableEq, Repr

/-- `getattr(self.embed_custom.free_slots, roles[0].value.lower(), None)`
per known role: the optional per-job attribute when declared, `none`
(the getattr default) for the crafter/gatherer jobs, which have no
attribute in `FreeSlotEmojiCollection`. -/
def FreeSlotEmojiCollection.roleAttr
    (fs : FreeSlotEmojiCollection) : Role → Option String
  | .GLA => fs.gla
  | .MRD => fs.mrd
  | .PLD => fs.pld
  | .WAR => fs.war
  | .DRK => fs.drk
  | .GNB => fs.gnb
  | .CNJ => fs.cnj
  | .WHM => fs.whm
  | .AST => fs.ast
  | .SCH => fs.sch
  | .SGE => fs.sge
  | .PGL => fs.pgl
  | .LNC => fs.lnc
  | .MNK => fs.mnk
  | .DRG => fs.drg
  | .ROG => fs.rog
  | .NIN => fs.nin
  | .SAM => fs.sam
  | .RPR => fs.rpr
  | .VPR => fs.vpr
  | .ARC => fs.arc
  | .BRD => fs.brd
  | .MCH => fs.mch
  | .DNC => fs.dnc
  | .THM => fs.thm
  | .BLM => fs.blm
  | .ACN => fs.acn
  | .SMN => fs.smn
  | .RDM => fs.rdm
  | .BLU => fs.blu
  | .PCT => fs.pct
  | .BTN | .MIN | .FSH | .CRP | .BSM | .ARM
  | .GSM | .LTW | .WVR | .ALC | .CUL => none

/-- `getattr(self.embed_custom.free_slots, role_type.value.lower(), None)`:
`tank` and `other` are required attributes, the five finer categories
are optional. -/
def FreeSlotEmojiCollection.roleTypeAttr
    (fs : FreeSlotEmojiCollection) : RoleType → Option String
  | .TANK => some fs.tank
  | .REGEN_HEALER => fs.regen_healer
  | .SHIELD_HEALER => fs.shield_healer
  | .MELEE_DPS => fs.melee_dps
  | .RANGED_DPS => fs.ranged_dps
  | .MAGICAL_DPS => fs.magical_dps
  | .OTHER => some fs.other

/-- `getattr(self.embed_custom.free_slots, slot_type.value.lower(), None)`:
all four slot-category attributes are required strings. -/
def FreeSlotEmojiCollection.slotTypeAttr
    (fs : FreeSlotEmojiCollection) : SlotType → Option String
  | .DPS => some fs.dps
  | .HEALER => some fs.healer
  | .TANK => some fs.tank
  | .OTHER => some fs.other

/-- `EmbedCustomization` from src/config.py (the `color` field does not
contribute to any size computation but is kept for fidelity). -/
structure EmbedCustomization where
  filled_slots : FilledSlotEmojiCollection
  free_slots : FreeSlotEmojiCollection
  no_party_finders_message : String
  color : Nat
  updated_emoji : String
  expires_emoji : String
deriving DecidableEq, Repr

/-- `DiscordClient._get_emoji_filled`:
`getattr(filled_slots, role.value.lower(), filled_slots.other)`.  For a
raw-string role the Python attribute access `role.value` would itself
fail; the dict-style lookup modelled here resolves a raw value to the
`other` default, which is also where every missing attribute lands. -/
def get_emoji_filled (fs : FilledSlotEmojiCollection)
    (role : RoleOrRaw) : String :=
  match role with
  | .known r => (fs.attr r).getD fs.other
  | .raw _ => fs.other

/-- `DiscordClient._get_emoji_filled_by_slot_type` from src/bot.py. -/
def get_emoji_filled_by_slot_type (fs : FilledSlotEmojiCollection)
    (slot_type : SlotType) : String :=
  match slot_type with
  | .DPS => get_emoji_filled fs (.known .MNK)
  | .HEALER => get_emoji_filled fs (.known .WHM)
  | .TANK => get_emoji_filled fs (.known .PLD)
  | .OTHER => fs.other

/-- `DiscordClient._get_emoji_open_from_single_role`: when the list has
exactly one role, look its lowercased code up among the free-slot
attributes (getattr default `None`); otherwise `None`. -/
def get_emoji_open_from_single_role (fs : FreeSlotEmojiCollection)
    (roles : List RoleOrRaw) : Option String :=
  match roles with
  | [.known r] => fs.roleAttr r
  | [.raw _] => none
  | _ => none

/-- `DiscordClient._get_emoji_open_from_role_types`.  The Python set of
role categories is modelled by the deduplicated list of the mapped
categories: the only order-sensitive use, `next(iter(...))`, happens
when the set is a singleton, where every order agrees. -/
def get_emoji_open_from_role_types (fs : FreeSlotEmojiCollection)
    (roles : List RoleOrRaw) : Option String :=
  let role_types := (roles.map RoleOrRaw.get_role_type).dedup
  if RoleType.OTHER ∈ role_types then some fs.other
  else
    match role_types with
    | [t] => fs.roleTypeAttr t
    | _ => none

/-- `DiscordClient._get_emoji_open_from_slot_types`.  The nested
early-return `if` cascade of the source flattens to this chain: the
`len == 1` branch only returns when the looked-up glyph is not `None`,
and the `len == 2` branch tries the three unordered pairs. -/
def get_emoji_open_from_slot_types (fs : FreeSlotEmojiCollection)
    (roles : List RoleOrRaw) : Option String :=
  let slot_types := (roles.map RoleOrRaw.get_slot_type).dedup
  if SlotType.OTHER ∈ slot_types then some fs.other
  else
    let single : Option String :=
      match slot_types with
      | [t] => fs.slotTypeAttr t
      | _ => none
    match single with
    | some e => some e
    | none =>
      if slot_types.length = 2 then
        if SlotType.DPS ∈ slot_types ∧ SlotType.HEALER ∈ slot_types then
          some fs.dps_healer
        else if SlotType.DPS ∈ slot_types ∧ SlotType.TANK ∈ slot_types then
          some fs.dps_tank
        else if SlotType.HEALER ∈ slot_types ∧ SlotType.TANK ∈ slot_types then
          some fs.healer_tank
        else none
      else if slot_types.length = 3 then some fs.dps_healer_tank
      else none

/-- `DiscordClient._get_emoji_open`: tiered fallback, ending in the
catch-all glyph with a logged warning. -/
def get_emoji_open (fs : FreeSlotEmojiCollection)
    (roles : List RoleOrRaw) : String :=
  if roles.isEmpty then fs.other
  else
    match get_emoji_open_from_single_role fs roles with
    | some e => e
    | none =>
      match get_emoji_open_from_role_types fs roles with
      | some e => e
      | none =>
        match get_emoji_open_from_slot_types fs roles with
        | some e => e
        | none => fs.other

/-- `DiscordClient._get_emoji_by_party_slot` from src/bot.py. -/
def get_emoji_by_party_slot (ec : EmbedCustomization)
    (slot : PartySlot) : String :=
  match slot.state with
  | .FILLED =>
    match slot.roles with
    | [] => get_emoji_filled_by_slot_type ec.filled_slots slot.slot_type
    | r :: _ => get_emoji_filled ec.filled_slots r
  | .OPEN => get_emoji_open ec.free_slots slot.roles

/-- `DiscordClient._emojify_party`: one glyph per slot joined by a
single space. -/
def emojify_party (ec : EmbedCustomization)
    (party : List PartySlot) : String :=
  String.intercalate " " (party.map (get_emoji_by_party_slot ec))

/-- Python's `<` on strings: lexicographic comparison of the code-point
sequences.  Defined by structural recursion so that concrete instances
evaluate inside the kernel. -/
def charListLt : List Char → List Char → Bool
  | [], [] => false
  | [], _ :: _ => true
  | _ :: _, [] => false
  | a :: as, b :: bs =>
    if a < b then true
    else if b < a then false
    else charListLt as bs

/-- The key order used by `_create_embed`'s
`sorted(listings, reverse=True, key=lambda x: x.expires)`: listing `a`
may precede listing `b` exactly when `a.expires` is not
lexicographically below `b.expires` (descending order; ties keep their
original relative order, which is what Python's stable sort does). -/
def expires_ge (a b : Listing) : Prop :=
  charListLt a.expires.data b.expires.data = false

instance : DecidableRel expires_ge := fun _ _ =>
  inferInstanceAs (Decidable (_ = false))

/-- The stable descending sort performed at the top of `_create_embed`,
modelled by stable insertion sort over `expires_ge` (any stable sort of
a total preorder yields the same list as Python's `sorted` with
`reverse=True`). -/
def sort_listings (listings : List Listing) : List Listing :=
  List.insertionSort expires_ge listings

/-- The code-point index one past the last `]` of the string, i.e.
Python's `full_description.rfind("]") + 1` (0 when there is no `]`). -/
def last_rbracket_cut (s : String) : Nat :=
  (((s.data.enum.filter fun p => p.2 = ']').map fun p => p.1 + 1).getLast?).getD 0

/-- Python's `str.strip()`: drop leading and trailing whitespace,
defined structurally over the code-point list so that it evaluates
inside the kernel. -/
def py_strip (s : String) : String :=
  String.mk (((s.data.dropWhile Char.isWhitespace).reverse.dropWhile
    Char.isWhitespace).reverse)

/-- `DiscordClient._extract_description_tags`: split at the last `]`
(`rfind`), stripping whitespace from both parts. -/
def extract_description_tags (full_description : String) : String × String :=
  let cut := last_rbracket_cut full_description
  (py_strip (String.mk (full_description.data.take cut)),
   py_strip (String.mk (full_description.data.drop cut)))

/-- The size `len(embed)` assigns to one field: the lengths of its name
and value strings. -/
def field_size (f : String × String) : Nat := f.1.length + f.2.length

/-- Total size of a list of embed fields. -/
def fields_len (fields : List (String × String)) : Nat :=
  (fields.map field_size).sum

/-- The parts of a `discord.Embed` that `_create_embed` manipulates and
that `len(embed)` counts. -/
structure Embed where
  title : String
  description : String
  fields : List (String × String)
  footer_text : Option String
deriving DecidableEq, Repr

/-- `len(embed)` in discord.py: the summed code-point lengths of the
title, description, every field name and value, and the footer text. -/
def embed_len (e : Embed) : Nat :=
  e.title.length + e.description.length + fields_len e.fields
    + ((e.footer_text.map String.length).getD 0)

/-- The three fields `_create_embed` adds for one listing: the creator
with the rendered roster, the description split into tag block and
text, and the updated/expires stamps with their decorative glyphs. -/
def listing_fields (ec : EmbedCustomization) (listing : Listing) :
    List (String × String) :=
  let party := emojify_party ec listing.party
  let td := extract_description_tags listing.description
  [(listing.creator, party),
   (td.1, td.2),
   (ec.updated_emoji ++ " " ++ listing.updated,
    ec.expires_emoji ++ " " ++ listing.expires)]

/-- Three `embed.remove_field(-1)` calls: drop the last three fields
(discord.py silently ignores removal from an already empty list, which
`List.take` mirrors). -/
def remove_last3 (fields : List (String × String)) : List (String × String) :=
  fields.take (fields.length - 3)

/-- The `for i, listing in enumerate(sorted(...))` loop of
`_create_embed`, carrying the field list and the loop index `i`.  The
first component of the result is the field list when the loop ends, the
second is the final value of `i` (on normal exhaustion the index of the
last processed listing, on `break` the index at which the loop broke). -/
def create_embed_loop (ec : EmbedCustomization) (title_len : Nat) :
    List Listing → Nat → List (String × String) →
      List (String × String) × Nat
  | [], i, fields => (fields, i - 1)
  | listing :: rest, i, fields =>
    if fields.length = 24 then (fields, i)
    else
      let fields2 := fields ++ listing_fields ec listing
      if 6000 < title_len + fields_len fields2 then (remove_last3 fields2, i)
      else create_embed_loop ec title_len rest (i + 1) fields2

/-- The overflow caption: `f"And {remaining // 3} more party finders
that didn't fit"`. -/
def footer_caption (remaining : Nat) : String :=
  "And " ++ toString (remaining / 3) ++ " more party finders that didn't fit"

/-- `DiscordClient._create_embed` from src/bot.py. -/
def create_embed (ec : EmbedCustomization) (listings : List Listing)
    (title : String) : Embed :=
  if listings.isEmpty then
    { title := title, description := ec.no_party_finders_message,
      fields := [], footer_text := none }
  else
    let loopOut := create_embed_loop ec title.length (sort_listings listings) 0 []
    let fields := loopOut.1
    let remaining := listings.length - loopOut.2 - 1
    if remaining ≠ 0 then
      let ft := footer_caption remaining
      if 5999 < title.length + fields_len fields + ft.length then
        { title := title, description := "", fields := remove_last3 fields,
          footer_text := some (footer_caption (remaining + 1)) }
      else
        { title := title, description := "", fields := fields,
          footer_text := some ft }
    else
      { title := title, description := "", fields := fields,
        footer_text := none }

/-- Python's `str.split("/")` for the single-character separator used
on the `filled/total` text: split at every separator, keeping empty
parts. -/
def splitCharAux (sep : Char) : List Char → List Char → List String
  | [], cur => [String.mk cur.reverse]
  | c :: cs, cur =>
    if c = sep then String.mk cur.reverse :: splitCharAux sep cs []
    else splitCharAux sep cs (c :: cur)

/-- `text.split("/")` on a Python string. -/
def py_split_slash (s : String) : List String :=
  splitCharAux '/' s.data []

/-- Python's no-argument `str.split()` used on the slot `title`
attribute: split on whitespace runs, discarding empty tokens. -/
def splitWsAux : List Char → List Char → List String
  | [], cur => if cur.isEmpty then [] else [String.mk cur.reverse]
  | c :: cs, cur =>
    if c.isWhitespace then
      if cur.isEmpty then splitWsAux cs []
      else String.mk cur.reverse :: splitWsAux cs []
    else splitWsAux cs (c :: cur)

/-- `role_strings = slot_div["title"].split()`. -/
def py_split_ws (s : String) : List String :=
  splitWsAux s.data []

/-- Python's `int(text)` on the text of a numeric field: optional
surrounding whitespace, an optional sign, then at least one decimal
digit; anything else raises `ValueError`, modelled as `none`.  (The
rarely used underscore digit grouping of Python 3 literals is not
modelled; no claim depends on it.) -/
def pyInt (s : String) : Option Int :=
  let t := ((s.data.dropWhile Char.isWhitespace).reverse.dropWhile
    Char.isWhitespace).reverse
  match t with
  | [] => none
  | c :: rest =>
    let (neg, digits) :=
      if c = '-' then (true, rest)
      else if c = '+' then (false, rest)
      else (false, c :: rest)
    if digits.isEmpty then none
    else if digits.all Char.isDigit then
      let mag : Nat := digits.foldl (fun acc d => acc * 10 + (d.toNat - 48)) 0
      some (if neg then -(mag : Int) else (mag : Int))
    else none

/-- One `div.slot` element as the extractor sees it after the markup
has been parsed: its class list and its `title` attribute (the
space-separated role tokens). -/
structure RawSlot where
  classes : List String
  title_attr : String
deriving DecidableEq, Repr

/-- One `div.listing` element as the extractor sees it after the markup
has been parsed: the attribute strings and the stripped text contents
that `scrape_listings` reads.  (The surrounding fetch and
BeautifulSoup parse are the external collaborators; a non-2xx status
or an unparseable document is fatal before this point.) -/
structure RawListing where
  data_centre : String
  pf_category : String
  duty_classes : List String
  duty_text : String
  description : String
  total_text : String
  slots : List RawSlot
  value_text : String
  creator : String
  world : String
  expires : String
  updated : String
deriving DecidableEq, Repr

/-- The slot-parsing part of the `scrape_listings` loop: state from the
`filled` class, slot category from the `dps`/`healer`/`tank` classes
(defaulting to `other`), and one role per whitespace token with the
raw-string fallback for unknown tokens. -/
def parse_slot (slot : RawSlot) : PartySlot :=
  let state :=
    if slot.classes.contains "filled" then SlotState.FILLED
    else SlotState.OPEN
  let slot_type :=
    if slot.classes.contains "dps" then SlotType.DPS
    else if slot.classes.contains "healer" then SlotType.HEALER
    else if slot.classes.contains "tank" then SlotType.TANK
    else SlotType.OTHER
  let roles := (py_split_ws slot.title_attr).map fun tok =>
    match roleOfString tok with
    | some r => RoleOrRaw.known r
    | none => RoleOrRaw.raw tok
  ⟨state, slot_type, roles⟩

/-- The per-listing body of the `scrape_listings` loop.  The region and
category tags fall back to their raw strings when unrecognized; the
`filled/total` counts and the item level must parse as integers
(`int(...)`), and a parse failure — `ValueError`, or `IndexError` when
the counts text has no `/` — propagates as an error.  Evaluation order
follows the source: `filled`, then `total`, then (after the slot loop,
which cannot fail) `item_level`. -/
def parse_raw_listing (rl : RawListing) : Except String Listing :=
  let data_centre :=
    match dataCentreOfString rl.data_centre with
    | some dc => DataCentreOrRaw.known dc
    | none => DataCentreOrRaw.raw rl.data_centre
  let pf_category :=
    match pfCategoryOfString rl.pf_category with
    | some c => PfCategoryOrRaw.known c
    | none => PfCategoryOrRaw.raw rl.pf_category
  let duty_type :=
    if rl.duty_classes.contains "cross" then DutyType.CROSS
    else DutyType.LOCAL
  match ((py_split_slash rl.total_text)[0]?).bind pyInt with
  | none => Except.error "invalid filled count"
  | some filled =>
    match ((py_split_slash rl.total_text)[1]?).bind pyInt with
    | none => Except.error "invalid total count"
    | some total =>
      let party := rl.slots.map parse_slot
      match pyInt rl.value_text with
      | none => Except.error "invalid item level"
      | some item_level =>
        Except.ok
          { duty_name := rl.duty_text, duty_type := duty_type,
            description := rl.description, party := party,
            filled := filled, total := total, item_level := item_level,
            creator := rl.creator, world := rl.world,
            expires := rl.expires, updated := rl.updated,
            data_centre := data_centre, pf_category := pf_category }

/-- A listing whose numeric fields do not all parse as integers: the
condition under which the current design lets the whole document
fail. -/
def bad_numeric (rl : RawListing) : Prop :=
  ((py_split_slash rl.total_text)[0]?).bind pyInt = none
  ∨ ((py_split_slash rl.total_text)[1]?).bind pyInt = none
  ∨ pyInt rl.value_text = none

instance (rl : RawListing) : Decidable (bad_numeric rl) :=
  inferInstanceAs (Decidable (_ ∨ _ ∨ _))

/-- `scrape_listings` over the parsed listing elements: listings are
processed in source order and the first uncaught exception aborts the
whole function, so nothing is returned for the document. -/
def scrape_listings_model : List RawListing → Except String (List Listing)
  | [] => Except.ok []
  | rl :: rest =>
    match parse_raw_listing rl with
    | Except.error e => Except.error e
    | Except.ok l =>
      match scrape_listings_model rest with
      | Except.error e => Except.error e
      | Except.ok ls => Except.ok (l :: ls)

/-- A concrete filled-slot glyph table used by the closed witnesses and
counterexamples. -/
def sampleFilled : FilledSlotEmojiCollection :=
  { gla := "F", pgl := "F", mrd := "F", lnc := "F", arc := "F", cnj := "F",
    thm := "F", pld := "F", mnk := "F", war := "F", drg := "F", brd := "F",
    whm := "F", blm := "F", acn := "F", smn := "F", sch := "F", rog := "F",
    nin := "F", mch := "F", drk := "F", ast := "F", sam := "F", rdm := "F",
    blu := "F", gnb := "F", dnc := "F", rpr := "F", sge := "F", vpr := "F",
    pct := "F", other := "O" }

/-- A concrete free-slot glyph table (no per-job overrides). -/
def sampleFree : FreeSlotEmojiCollection :=
  { tank := "t", gla := none, mrd := none, pld := none, war := none,
    drk := none, gnb := none, healer := "h", regen_healer := none,
    cnj := none, whm := none, ast := none, shield_healer := none,
    sch := none, sge := none, dps := "d", melee_dps := none, pgl := none,
    lnc := none, mnk := none, drg := none, rog := none, nin := none,
    sam := none, rpr := none, vpr := none, ranged_dps := none, arc := none,
    brd := none, mch := none, dnc := none, magical_dps := none, thm := none,
    blm := none, acn := none, smn := none, rdm := none, blu := none,
    pct := none, dps_healer := "dh", dps_tank := "dt", healer_tank := "ht",
    dps_healer_tank := "dht", other := "o" }

/-- A concrete embed customization. -/
def sampleEC : EmbedCustomization :=
  { filled_slots := sampleFilled, free_slots := sampleFree,
    no_party_finders_message := "no finders", color := 0,
    updated_emoji := "U", expires_emoji := "E" }

/-- A small concrete listing (empty party, empty description). -/
def mkListing (creator expires : String) : Listing :=
  { duty_name := "Raid", duty_type := .CROSS, description := "",
    party := [], filled := 0, total := 8, item_level := 0,
    creator := creator, world := "W", expires := expires, updated := "u",
    data_centre := .known .CRYSTAL, pf_category := .known .RAIDS }

/-- Nine small listings, each contributing three fields of total size 8,
far below the byte budget. -/
def nineListings : List Listing :=
  [mkListing "c1" "e9", mkListing "c2" "e8", mkListing "c3" "e7",
   mkListing "c4" "e6", mkListing "c5" "e5", mkListing "c6" "e4",
   mkListing "c7" "e3", mkListing "c8" "e2", mkListing "c9" "e1"]

/-- Ten small listings: the nine above plus one more. -/
def tenListings : List Listing := mkListing "c0" "f1" :: nineListings

/-- A title of 6001 code points: longer than the 6000 byte budget on
its own. -/
def bigTitle : String := String.mk (List.replicate 6001 'a')

/-- A parsed listing element whose `filled/total` text has no `/`, so
the `total` count cannot be extracted. -/
def badRawListing : RawListing :=
  { data_centre := "Crystal", pf_category := "Raids",
    duty_classes := ["duty", "cross"], duty_text := "Raid",
    description := "[Tag] text", total_text := "58",
    slots := [], value_text := "640", creator := "c", world := "W",
    expires := "5m", updated := "1m" }

/-- A parsed listing element with valid numerics but an unknown region,
an unknown category and an unknown role token. -/
def oddRawListing : RawListing :=
  { data_centre := "Shadow", pf_category := "Weird",
    duty_classes := ["duty", "local"], duty_text := "Raid",
    description := "[Tag] text", total_text := "5/8",
    slots := [{ classes := ["slot", "open", "dps"], title_attr := "XYZ SAM" }],
    value_text := "640", creator := "c", world := "W",
    expires := "5m", updated := "1m" }

/-- A listing that matches neither the duty name nor the region used
by the filter witness. -/
def otherListing : Listing :=
  { mkListing "x" "9m" with
    duty_name := "Trial",
    data_centre := DataCentreOrRaw.known DataCentre.AETHER }

/-! ## Theorems -/

/-- C4.  For every role value — the raw-string variant that the
extractor preserves included — the classification lookups are total
functions (they are plain Lean functions, so no input can throw) and
any value outside the lookup tables, i.e. any raw string, is mapped to
the `Other` default of both tables. -/
theorem role_classification_total_default :
    ∀ s : String,
      RoleOrRaw.get_role_type (RoleOrRaw.raw s) = RoleType.OTHER ∧
      RoleOrRaw.get_slot_type (RoleOrRaw.raw s) = SlotType.OTHER := by
  intro s
  exact ⟨rfl, rfl⟩

/-- C9.  `filter_listings` returns the subsequence of its input whose
elements match the duty name by exact string equality and the region by
exact value equality: the result is a sublist of the input (so the
original relative order is preserved, and the input itself — a value —
is untouched), every kept listing matches both fields, every matching
listing of the input is kept, and the number of kept listings is
exactly the number of matching ones. -/
theorem filter_listings_exact_stable (listings : List Listing)
    (duty_name : String) (data_centre : DataCentre) :
    (filter_listings listings duty_name data_centre).Sublist listings
    ∧ (∀ l ∈ filter_listings listings duty_name data_centre,
        l.duty_name = duty_name ∧ l.data_centre = .known data_centre)
    ∧ (∀ l ∈ listings, l.duty_name = duty_name →
        l.data_centre = .known data_centre →
        l ∈ filter_listings listings duty_name data_centre)
    ∧ (filter_listings listings duty_name data_centre).length
        = listings.countP (fun l => l.duty_name == duty_name
            && l.data_centre == DataCentreOrRaw.known data_centre) := by
  refine ⟨List.filter_sublist _, ?_, ?_, ?_⟩
  · intro l hl
    have := List.of_mem_filter hl
    simp only [Bool.and_eq_true, beq_iff_eq] at this
    exact this
  · intro l hl h1 h2
    refine List.mem_filter.2 ⟨hl, ?_⟩
    simp only [Bool.and_eq_true, beq_iff_eq]
    exact ⟨h1, h2⟩
  · simp [filter_listings, List.countP_eq_length_filter]

/-- Witness for C9: a two-listing mixed batch filtered by duty name
`"Raid"` and the Crystal region keeps the matching listing. -/
theorem filter_listings_exact_stable_witness :
    (mkListing "a" "1m").duty_name = "Raid"
    ∧ mkListing "a" "1m"
        ∈ filter_listings [mkListing "a" "1m", otherListing] "Raid"
            DataCentre.CRYSTAL :=
  ⟨rfl, (filter_listings_exact_stable [mkListing "a" "1m", otherListing]
      "Raid" DataCentre.CRYSTAL).2.2.1 (mkListing "a" "1m")
      (List.mem_cons_self _ _) rfl rfl⟩

/-- C7.  A Filled slot with an empty role list falls back to the glyph
determined by its slot category: the default DPS job glyph (MNK) for
Dps, the default healer job glyph (WHM) for Healer, the default tank
job glyph (PLD) for Tank, and the catch-all glyph for Other. -/
theorem filled_empty_roles_default (ec : EmbedCustomization) :
    get_emoji_by_party_slot ec ⟨.FILLED, .DPS, []⟩ = ec.filled_slots.mnk
    ∧ get_emoji_by_party_slot ec ⟨.FILLED, .HEALER, []⟩ = ec.filled_slots.whm
    ∧ get_emoji_by_party_slot ec ⟨.FILLED, .TANK, []⟩ = ec.filled_slots.pld
    ∧ get_emoji_by_party_slot ec ⟨.FILLED, .OTHER, []⟩
        = ec.filled_slots.other :=
  ⟨rfl, rfl, rfl, rfl⟩

/-- Every known role classified as a Tank slot is in the Tank role
category. -/
lemma role_type_of_slot_tank :
    ∀ r : Role, r.get_slot_type = SlotType.TANK →
      r.get_role_type = RoleType.TANK := by decide

/-- Every known role classified as a Dps slot is in one of the three
dps role categories; in particular it is not in the Tank category. -/
lemma role_type_of_slot_dps :
    ∀ r : Role, r.get_slot_type = SlotType.DPS →
      r.get_role_type ≠ RoleType.TANK ∧ r.get_role_type ≠ RoleType.OTHER := by
  decide

/-- A known role whose slot category is not Other is not in the Other
role category either. -/
lemma role_type_ne_other_of_slot :
    ∀ r : Role, r.get_slot_type ≠ SlotType.OTHER →
      r.get_role_type ≠ RoleType.OTHER := by decide

/-- A duplicate-free list containing two distinct elements and nothing
else has length exactly two. -/
lemma length_eq_two_of_pair {α : Type} [DecidableEq α] {l : List α}
    {a b : α} (hnd : l.Nodup) (hab : a ≠ b) (ha : a ∈ l) (hb : b ∈ l)
    (hsub : ∀ x ∈ l, x = a ∨ x = b) : l.length = 2 := by
  have hfin : l.toFinset = {a, b} := by
    ext x
    simp only [List.mem_toFinset, Finset.mem_insert, Finset.mem_singleton]
    constructor
    · exact hsub x
    · rintro (rfl | rfl) <;> assumption
  have := List.toFinset_card_of_nodup hnd
  rw [hfin] at this
  rw [← this, Finset.card_pair hab]

/-- C6.  Rendering an Open party slot whose roles are known and span
exactly the slot categories Dps and Tank yields the Dps+Tank pair
glyph, whatever the slot's own category tag and however the roles are
ordered in the list (the hypotheses only constrain the set of slot
categories, not their order). -/
theorem open_slot_dps_tank_pair (ec : EmbedCustomization)
    (st : SlotType) (roles : List RoleOrRaw)
    (hknown : ∀ r ∈ roles, ∃ k : Role, r = RoleOrRaw.known k)
    (hdps : SlotType.DPS ∈ roles.map RoleOrRaw.get_slot_type)
    (htank : SlotType.TANK ∈ roles.map RoleOrRaw.get_slot_type)
    (hspan : ∀ t ∈ roles.map RoleOrRaw.get_slot_type,
        t = SlotType.DPS ∨ t = SlotType.TANK) :
    get_emoji_by_party_slot ec ⟨.OPEN, st, roles⟩
      = ec.free_slots.dps_tank := by
  show get_emoji_open ec.free_slots roles = ec.free_slots.dps_tank
  -- The two slot categories come from two distinct roles.
  obtain ⟨rd, hrdm, hrd⟩ := List.mem_map.1 hdps
  obtain ⟨rt, hrtm, hrt⟩ := List.mem_map.1 htank
  -- The list has at least two elements.
  match roles, hknown, hspan, hrdm, hrtm with
  | [], _, _, hrdm, _ => exact absurd hrdm (List.not_mem_nil rd)
  | [x], _, _, hrdm, hrtm =>
    rw [List.mem_singleton] at hrdm hrtm
    rw [hrdm] at hrd; rw [hrtm] at hrt
    rw [hrd] at hrt; exact absurd hrt (by decide)
  | x :: y :: rest, hknown, hspan, hrdm, hrtm =>
  set rs : List RoleOrRaw := x :: y :: rest with hrs
  have hopen1 : get_emoji_open_from_single_role ec.free_slots rs = none := by
    cases x <;> rfl
  -- Facts about the role-category set.
  have hothernot : RoleType.OTHER ∉ (rs.map RoleOrRaw.get_role_type).dedup := by
    rw [List.mem_dedup]
    intro hmem
    obtain ⟨r, hrm, hr⟩ := List.mem_map.1 hmem
    obtain ⟨k, rfl⟩ := hknown r hrm
    have hst := hspan _ (List.mem_map.2 ⟨_, hrm, rfl⟩)
    have : k.get_slot_type ≠ SlotType.OTHER := by
      rcases hst with h | h <;> simp [RoleOrRaw.get_slot_type] at h <;>
        simp [h]
    exact role_type_ne_other_of_slot k this hr
  have htankmem : RoleType.TANK ∈ (rs.map RoleOrRaw.get_role_type).dedup := by
    rw [List.mem_dedup]
    obtain ⟨k, rfl⟩ := hknown rt hrtm
    refine List.mem_map.2 ⟨_, hrtm, ?_⟩
    have : k.get_slot_type = SlotType.TANK := by
      simpa [RoleOrRaw.get_slot_type] using hrt
    simpa [RoleOrRaw.get_role_type] using role_type_of_slot_tank k this
  have hdpsrt : ∃ t ∈ (rs.map RoleOrRaw.get_role_type).dedup,
      t ≠ RoleType.TANK := by
    obtain ⟨k, rfl⟩ := hknown rd hrdm
    have : k.get_slot_type = SlotType.DPS := by
      simpa [RoleOrRaw.get_slot_type] using hrd
    refine ⟨k.get_role_type, ?_, (role_type_of_slot_dps k this).1⟩
    rw [List.mem_dedup]
    exact List.mem_map.2 ⟨_, hrdm, rfl⟩
  have hopen2 : get_emoji_open_from_role_types ec.free_slots rs = none := by
    unfold get_emoji_open_from_role_types
    rw [if_neg hothernot]
    obtain ⟨t, htm, htne⟩ := hdpsrt
    match hd : (rs.map RoleOrRaw.get_role_type).dedup, htankmem, htm with
    | [], htankmem, _ => exact absurd htankmem (List.not_mem_nil _)
    | [u], htankmem, htm =>
      rw [List.mem_singleton] at htankmem htm
      exact absurd (htm.trans htankmem.symm) htne
    | u :: v :: l, _, _ => rfl
  -- Facts about the slot-category set.
  have hsnd : (rs.map RoleOrRaw.get_slot_type).dedup.Nodup :=
    List.nodup_dedup _
  have hsdps : SlotType.DPS ∈ (rs.map RoleOrRaw.get_slot_type).dedup :=
    List.mem_dedup.2 hdps
  have hstank : SlotType.TANK ∈ (rs.map RoleOrRaw.get_slot_type).dedup :=
    List.mem_dedup.2 htank
  have hssub : ∀ t ∈ (rs.map RoleOrRaw.get_slot_type).dedup,
      t = SlotType.DPS ∨ t = SlotType.TANK := fun t ht =>
    hspan t (List.mem_dedup.1 ht)
  have hslen : (rs.map RoleOrRaw.get_slot_type).dedup.length = 2 :=
    length_eq_two_of_pair hsnd (by decide) hsdps hstank hssub
  have hsother : SlotType.OTHER ∉ (rs.map RoleOrRaw.get_slot_type).dedup := by
    intro h
    rcases hssub _ h with h' | h' <;> exact absurd h' (by decide)
  have hshealer : SlotType.HEALER ∉ (rs.map RoleOrRaw.get_slot_type).dedup := by
    intro h
    rcases hssub _ h with h' | h' <;> exact absurd h' (by decide)
  have hopen3 : get_emoji_open_from_slot_types ec.free_slots rs
      = some ec.free_slots.dps_tank := by
    unfold get_emoji_open_from_slot_types
    rw [if_neg hsother]
    match hd : (rs.map RoleOrRaw.get_slot_type).dedup, hslen, hsdps,
        hstank, hshealer with
    | u :: v :: [], _, hsdps, hstank, hshealer =>
      show (if SlotType.DPS ∈ [u, v] ∧ SlotType.HEALER ∈ [u, v] then
            some ec.free_slots.dps_healer
          else if SlotType.DPS ∈ [u, v] ∧ SlotType.TANK ∈ [u, v] then
            some ec.free_slots.dps_tank
          else if SlotType.HEALER ∈ [u, v] ∧ SlotType.TANK ∈ [u, v] then
            some ec.free_slots.healer_tank
          else none) = some ec.free_slots.dps_tank
      rw [if_neg (fun h => hshealer h.2), if_pos ⟨hsdps, hstank⟩]
  show (if rs.isEmpty then ec.free_slots.other else _) = _
  rw [if_neg (by simp [hrs])]
  rw [hopen1, hopen2, hopen3]

/-- `charListLt` is asymmetric. -/
lemma charListLt_asymm :
    ∀ a b : List Char, charListLt a b = true → charListLt b a = false := by
  intro a
  induction a with
  | nil =>
    intro b h
    cases b with
    | nil => simp [charListLt] at h
    | cons y ys => rfl
  | cons x xs ih =>
    intro b h
    cases b with
    | nil => simp [charListLt] at h
    | cons y ys =>
      simp only [charListLt] at h ⊢
      by_cases h1 : x < y
      · rw [if_neg (lt_asymm h1), if_pos h1]
      · by_cases h2 : y < x
        · rw [if_neg h1, if_pos h2] at h
          cases h
        · rw [if_neg h1, if_neg h2] at h
          rw [if_neg h2, if_neg h1]
          exact ih ys h

/-- If `a` is lexicographically below `c` then, for any `b`, `a` is
below `b` or `b` is below `c`. -/
lemma charListLt_true_split :
    ∀ a b c : List Char, charListLt a c = true →
      charListLt a b = true ∨ charListLt b c = true := by
  intro a
  induction a with
  | nil =>
    intro b c hac
    cases c with
    | nil => simp [charListLt] at hac
    | cons z zs =>
      cases b with
      | nil => right; rfl
      | cons y ys => left; rfl
  | cons x xs ih =>
    intro b c hac
    cases c with
    | nil => simp [charListLt] at hac
    | cons z zs =>
      cases b with
      | nil => right; rfl
      | cons y ys =>
        simp only [charListLt] at hac ⊢
        by_cases hxz : x < z
        · by_cases hxy : x < y
          · left; rw [if_pos hxy]
          · by_cases hyx : y < x
            · right; rw [if_pos (lt_trans hyx hxz)]
            · right
              have hxy' : y = x := le_antisymm (not_lt.1 hxy) (not_lt.1 hyx)
              rw [if_pos (hxy' ▸ hxz)]
        · by_cases hzx : z < x
          · rw [if_neg hxz, if_pos hzx] at hac
            cases hac
          · rw [if_neg hxz, if_neg hzx] at hac
            have hxz' : x = z := le_antisymm (not_lt.1 hzx) (not_lt.1 hxz)
            by_cases hxy : x < y
            · left; rw [if_pos hxy]
            · by_cases hyx : y < x
              · right; rw [hxz'] at hyx; rw [if_pos hyx]
              · rcases ih ys zs hac with h | h
                · left; rw [if_neg hxy, if_neg hyx]; exact h
                · right
                  have hyz : ¬y < z := hxz' ▸ hyx
                  have hzy : ¬z < y := hxz' ▸ hxy
                  rw [if_neg hyz, if_neg hzy]
                  exact h

instance : IsTotal Listing expires_ge := by
  constructor
  intro a b
  cases h : charListLt a.expires.data b.expires.data with
  | false => exact Or.inl h
  | true => exact Or.inr (charListLt_asymm _ _ h)

instance : IsTrans Listing expires_ge := by
  constructor
  intro a b c hab hbc
  cases h : charListLt a.expires.data c.expires.data with
  | false => exact h
  | true =>
    rcases charListLt_true_split _ b.expires.data _ h with h' | h'
    · rw [expires_ge, h'] at hab; cases hab
    · rw [expires_ge, h'] at hbc; cases hbc

/-- Each listing contributes exactly three fields. -/
lemma listing_fields_length (ec : EmbedCustomization) (l : Listing) :
    (listing_fields ec l).length = 3 := rfl

/-- Field sizes add up over concatenation. -/
lemma fields_len_append (a b : List (String × String)) :
    fields_len (a ++ b) = fields_len a + fields_len b := by
  simp [fields_len]

/-- The fields of a block of listings number three per listing. -/
lemma flatMap_listing_fields_length (ec : EmbedCustomization) :
    ∀ ls : List Listing,
      (ls.flatMap (listing_fields ec)).length = 3 * ls.length := by
  intro ls
  induction ls with
  | nil => rfl
  | cons l rest ih =>
    rw [List.flatMap_cons, List.length_append, listing_fields_length, ih,
      List.length_cons]
    omega

/-- Removing the last three fields right after appending a three-field
block restores the previous field list. -/
lemma remove_last3_append (acc f : List (String × String))
    (hf : f.length = 3) : remove_last3 (acc ++ f) = acc := by
  rw [remove_last3, List.length_append, hf, Nat.add_sub_cancel]
  exact List.take_left acc f

/-- Truncation never increases the total field size. -/
lemma fields_len_take_le (l : List (String × String)) (n : Nat) :
    fields_len (l.take n) ≤ fields_len l := by
  conv_rhs => rw [← List.take_append_drop n l]
  rw [fields_len_append]
  exact Nat.le_add_right _ _

/-- C5 counterexample.  Sorting two listings with expiry strings
`"59m"` and `"5m"` puts `"5m"` first: in the descending lexical order
`"5m"` sorts before `"59m"` (the code point of `9` is below that of
`m`), contrary to the claimed example. -/
theorem sort_5m_before_59m :
    (sort_listings [mkListing "a" "59m", mkListing "b" "5m"]).map
      (fun l => l.expires) = ["5m", "59m"] := rfl

/-- C5 (amended).  Before composition the listings are sorted by their
literal expiry display strings in descending lexical (not numeric)
order — a permutation of the input, pairwise ordered by `expires_ge` —
and in particular the string `"5m"` sorts before the string `"59m"`. -/
theorem sort_listings_descending (listings : List Listing) :
    List.Sorted expires_ge (sort_listings listings)
    ∧ (sort_listings listings).Perm listings
    ∧ (sort_listings [mkListing "a" "59m", mkListing "b" "5m"]).map
        (fun l => l.expires) = ["5m", "59m"] :=
  ⟨List.sorted_insertionSort expires_ge listings,
   List.perm_insertionSort expires_ge listings, rfl⟩

/-- While the field cap is not reached and the byte budget is not
exceeded, the composition loop appends every listing's three fields and
advances the index one listing at a time. -/
lemma create_embed_loop_adds_all (ec : EmbedCustomization) (tl : Nat) :
    ∀ (todo tail : List Listing) (i : Nat) (pre : List Listing),
      pre.length + todo.length ≤ 8 →
      tl + fields_len ((pre ++ todo).flatMap (listing_fields ec)) ≤ 6000 →
      create_embed_loop ec tl (todo ++ tail) i
          (pre.flatMap (listing_fields ec))
        = create_embed_loop ec tl tail (i + todo.length)
            ((pre ++ todo).flatMap (listing_fields ec)) := by
  intro todo
  induction todo with
  | nil =>
    intro tail i pre _ _
    simp
  | cons l todo' ih =>
    intro tail i pre hlen hsize
    have hpre : pre.length ≤ 7 := by
      rw [List.length_cons] at hlen
      omega
    have hacc : (pre.flatMap (listing_fields ec)).length = 3 * pre.length :=
      flatMap_listing_fields_length ec pre
    rw [List.cons_append]
    show (if (pre.flatMap (listing_fields ec)).length = 24 then _
      else _) = _
    rw [if_neg (by omega)]
    have happ : pre.flatMap (listing_fields ec) ++ listing_fields ec l
        = (pre ++ [l]).flatMap (listing_fields ec) := by
      simp
    have hsz : ¬ 6000 < tl + fields_len (pre.flatMap (listing_fields ec)
        ++ listing_fields ec l) := by
      rw [happ]
      have hre : (pre ++ l :: todo') = (pre ++ [l]) ++ todo' := by simp
      rw [hre, List.flatMap_append, fields_len_append] at hsize
      omega
    rw [if_neg hsz, happ]
    have := ih tail (i + 1) (pre ++ [l])
      (by rw [List.length_append, List.length_singleton]
          rw [List.length_cons] at hlen
          omega)
      (by have hre : ((pre ++ [l]) ++ todo') = pre ++ l :: todo' := by simp
          rw [hre]
          exact hsize)
    rw [this]
    have hre : ((pre ++ [l]) ++ todo') = pre ++ l :: todo' := by simp
    rw [hre, Nat.add_assoc, Nat.add_comm 1 todo'.length, List.length_cons]

/-- C1 (amended).  Composing 9 listings (each contributing 3 fields)
whose first eight in sorted order fit the byte budget together with the
title renders exactly 8 listings (24 fields) but emits NO overflow
caption: the loop breaks at the 24-field cap with the loop index
already at the ninth listing, so the computed remainder is
`9 - 8 - 1 = 0` and the ninth listing is dropped silently. -/
theorem nine_listings_render_eight_no_caption (ec : EmbedCustomization)
    (title : String) (listings : List Listing)
    (hlen : listings.length = 9)
    (hsize : title.length + fields_len
        (((sort_listings listings).take 8).flatMap (listing_fields ec))
      ≤ 6000) :
    (create_embed ec listings title).fields.length = 24
    ∧ (create_embed ec listings title).footer_text = none := by
  have hslen : (sort_listings listings).length = 9 := by
    rw [sort_listings,
      (List.perm_insertionSort expires_ge listings).length_eq, hlen]
  have htake : ((sort_listings listings).take 8).length = 8 := by
    simp [List.length_take, hslen]
  obtain ⟨l9, hl9⟩ : ∃ l9, (sort_listings listings).drop 8 = [l9] := by
    apply List.length_eq_one.1
    rw [List.length_drop, hslen]
  have hsplit : sort_listings listings
      = (sort_listings listings).take 8 ++ [l9] := by
    conv_lhs => rw [← List.take_append_drop 8 (sort_listings listings)]
    rw [hl9]
  have hloop : create_embed_loop ec title.length (sort_listings listings) 0 []
      = (((sort_listings listings).take 8).flatMap (listing_fields ec), 8) := by
    conv_lhs => rw [hsplit]
    have h0 : ([] : List (String × String))
        = ([] : List Listing).flatMap (listing_fields ec) := rfl
    rw [h0, create_embed_loop_adds_all ec title.length _ [l9] 0 []
      (by rw [List.length_nil, htake])
      (by simpa using hsize)]
    rw [List.nil_append, htake]
    show (if (((sort_listings listings).take 8).flatMap
        (listing_fields ec)).length = 24 then _ else _) = _
    rw [if_pos (by rw [flatMap_listing_fields_length, htake])]
  have hne : listings.isEmpty = false := by
    cases listings with
    | nil => simp at hlen
    | cons a l => rfl
  have hres : create_embed ec listings title
      = { title := title, description := "",
          fields := ((sort_listings listings).take 8).flatMap
            (listing_fields ec),
          footer_text := none } := by
    unfold create_embed
    rw [if_neg (by simp [hne])]
    simp only [hloop, hlen]
    norm_num
  rw [hres]
  exact ⟨by rw [flatMap_listing_fields_length, htake], rfl⟩

/-- Witness for C1: nine concrete small listings satisfy the size
hypothesis, render 24 fields and emit no caption. -/
theorem nine_listings_render_eight_no_caption_witness :
    nineListings.length = 9
    ∧ (create_embed sampleEC nineListings "T2").fields.length = 24
    ∧ (create_embed sampleEC nineListings "T2").footer_text = none :=
  ⟨rfl, nine_listings_render_eight_no_caption sampleEC "T2" nineListings rfl
    (by decide)⟩

/-- C1 counterexample.  Nine small listings — none anywhere near the
byte budget — produce a digest with 24 fields and NO overflow caption,
contradicting the claimed caption reporting 1 remaining listing. -/
theorem nine_listings_no_caption_counterexample :
    (create_embed sampleEC nineListings "T").fields.length = 24
    ∧ (create_embed sampleEC nineListings "T").footer_text = none :=
  ⟨rfl, rfl⟩

/-- C2.  Evaluation at the failing input: of ten small listings only
eight are rendered (24 fields), so two listings were not rendered —
`count - index_of_last_emitted - 1 = 10 - 7 - 1 = 2` — yet the caption
displays 0: the code divides the listing remainder (itself undercounted
by one at the field-cap break) by 3 as if it were a field count. -/
theorem caption_shows_zero_for_two_unrendered :
    tenListings.length = 10
    ∧ (create_embed sampleEC tenListings "T").fields.length = 24
    ∧ (create_embed sampleEC tenListings "T").footer_text
        = some "And 0 more party finders that didn't fit" :=
  ⟨rfl, rfl, rfl⟩

/-- Loop invariant for the byte budget: if the fields accumulated so
far fit in the budget together with the title, the fields returned by
the composition loop still do — each iteration either keeps the old
fields, or keeps an extended field list it has just checked, or removes
exactly the fields it had just added. -/
lemma create_embed_loop_size_le (ec : EmbedCustomization) (tl : Nat) :
    ∀ (todo : List Listing) (i : Nat) (acc : List (String × String)),
      tl + fields_len acc ≤ 6000 →
      tl + fields_len (create_embed_loop ec tl todo i acc).1 ≤ 6000 := by
  intro todo
  induction todo with
  | nil =>
    intro i acc h
    exact h
  | cons l rest ih =>
    intro i acc h
    show tl + fields_len (if acc.length = 24 then (acc, i)
      else if 6000 < tl + fields_len (acc ++ listing_fields ec l) then
        (remove_last3 (acc ++ listing_fields ec l), i)
      else create_embed_loop ec tl rest (i + 1)
        (acc ++ listing_fields ec l)).1 ≤ 6000
    by_cases h24 : acc.length = 24
    · rw [if_pos h24]
      exact h
    · rw [if_neg h24]
      by_cases hsz : 6000 < tl + fields_len (acc ++ listing_fields ec l)
      · rw [if_pos hsz]
        rw [remove_last3_append acc (listing_fields ec l) rfl]
        exact h
      · rw [if_neg hsz]
        exact ih (i + 1) _ (Nat.le_of_not_lt hsz)

/-- C3 (amended).  For every nonempty input and every configuration
whose title alone fits the 6000 budget, the digest excluding the
overflow caption stays within 6000: its description is empty and the
title plus all field names and values total at most 6000 code points.
(The caption stage can still push the overall serialized size past
6000, since after the 5999 check removes one more listing the
recomputed caption is never re-checked — and an oversized title alone
already breaks the unconditional bound, as the counterexample shows.) -/
theorem create_embed_pre_caption_within_budget (ec : EmbedCustomization)
    (listings : List Listing) (title : String)
    (hne : listings ≠ []) (ht : title.length ≤ 6000) :
    title.length + fields_len (create_embed ec listings title).fields ≤ 6000
    ∧ (create_embed ec listings title).description = "" := by
  have hie : listings.isEmpty = false := by
    cases listings with
    | nil => exact absurd rfl hne
    | cons a l => rfl
  have hloop := create_embed_loop_size_le ec title.length
    (sort_listings listings) 0 []
    (by simpa [fields_len] using ht)
  unfold create_embed
  rw [if_neg (by simp [hie])]
  by_cases hrem : listings.length
      - (create_embed_loop ec title.length (sort_listings listings) 0 []).2
      - 1 ≠ 0
  · rw [if_pos hrem]
    by_cases hcap : 5999 < title.length
        + fields_len (create_embed_loop ec title.length
            (sort_listings listings) 0 []).1
        + (footer_caption (listings.length
            - (create_embed_loop ec title.length
                (sort_listings listings) 0 []).2 - 1)).length
    · rw [if_pos hcap]
      refine ⟨?_, rfl⟩
      calc title.length + fields_len (remove_last3
            (create_embed_loop ec title.length
              (sort_listings listings) 0 []).1)
          ≤ title.length + fields_len (create_embed_loop ec title.length
              (sort_listings listings) 0 []).1 :=
            Nat.add_le_add_left (fields_len_take_le _ _) _
        _ ≤ 6000 := hloop
    · rw [if_neg hcap]
      exact ⟨hloop, rfl⟩
  · rw [if_neg hrem]
    exact ⟨hloop, rfl⟩

/-- Witness for C3: a single tiny listing with a one-character title. -/
theorem create_embed_pre_caption_within_budget_witness :
    ([mkListing "c" "e"] ≠ ([] : List Listing))
    ∧ ("T" : String).length ≤ 6000
    ∧ "T".length
        + fields_len (create_embed sampleEC [mkListing "c" "e"] "T").fields
      ≤ 6000 :=
  ⟨by decide, by decide,
   (create_embed_pre_caption_within_budget sampleEC [mkListing "c" "e"] "T"
     (by decide) (by decide)).1⟩

/-- Composing a single listing whose three fields break the budget
together with the title yields a digest holding only the title: the
fields are added, found oversized, removed again, and no caption is set
because the computed remainder is `1 - 0 - 1 = 0`. -/
lemma create_embed_single_oversized (ec : EmbedCustomization) (l : Listing)
    (title : String)
    (h : 6000 < title.length + fields_len (listing_fields ec l)) :
    create_embed ec [l] title
      = { title := title, description := "", fields := [],
          footer_text := none } := by
  have hloop : create_embed_loop ec title.length [l] 0 [] = ([], 0) := by
    show (if ([] : List (String × String)).length = 24 then _
      else if 6000 < title.length
          + fields_len ([] ++ listing_fields ec l)
        then (remove_last3 ([] ++ listing_fields ec l), 0)
        else _) = (([] : List (String × String)), 0)
    rw [if_neg (by decide), List.nil_append, if_pos h]
    rfl
  unfold create_embed
  rw [if_neg (by simp)]
  rw [show sort_listings [l] = [l] from rfl, hloop]
  norm_num

/-- C3 counterexample.  With a 6001-code-point title and one small
listing the digest serializes to 6001 code points: the fields are
removed again after breaching the budget and the returned digest — just
the title — already exceeds 6000, so the claimed unconditional
`at most 6000` bound is false. -/
theorem budget_exceeded_counterexample :
    6000 < embed_len (create_embed sampleEC [mkListing "c" "e"] bigTitle) := by
  have hlen : bigTitle.length = 6001 := by
    rw [bigTitle]
    rw [show (String.mk (List.replicate 6001 'a')).length
        = (List.replicate 6001 'a').length from rfl, List.length_replicate]
  have hfl : fields_len (listing_fields sampleEC (mkListing "c" "e")) = 7 := by
    decide
  rw [create_embed_single_oversized sampleEC (mkListing "c" "e") bigTitle
    (by rw [hlen, hfl]; omega)]
  have hemb : embed_len
      ({ title := bigTitle, description := "", fields := [],
         footer_text := none } : Embed) = bigTitle.length := by
    simp [embed_len, fields_len]
  rw [hemb, hlen]
  omega

/-- Shape of the composition loop: starting from the fields of a block
of at most eight listings, it returns the fields of that block extended
by some initial segment of the remaining listings — three fields per
listing, eight listings at most, never a partial listing. -/
lemma create_embed_loop_shape (ec : EmbedCustomization) (tl : Nat) :
    ∀ (todo : List Listing) (i : Nat) (pre : List Listing),
      pre.length ≤ 8 →
      ∃ m, m ≤ todo.length ∧ pre.length + m ≤ 8 ∧
        (create_embed_loop ec tl todo i
            (pre.flatMap (listing_fields ec))).1
          = (pre ++ todo.take m).flatMap (listing_fields ec) := by
  intro todo
  induction todo with
  | nil =>
    intro i pre hpre
    exact ⟨0, Nat.le_refl 0, by simpa using hpre, by simp; rfl⟩
  | cons l rest ih =>
    intro i pre hpre
    have hacc : (pre.flatMap (listing_fields ec)).length = 3 * pre.length :=
      flatMap_listing_fields_length ec pre
    show ∃ m, m ≤ (l :: rest).length ∧ pre.length + m ≤ 8 ∧
      (if (pre.flatMap (listing_fields ec)).length = 24 then
          (pre.flatMap (listing_fields ec), i)
        else if 6000 < tl + fields_len (pre.flatMap (listing_fields ec)
            ++ listing_fields ec l) then
          (remove_last3 (pre.flatMap (listing_fields ec)
            ++ listing_fields ec l), i)
        else create_embed_loop ec tl rest (i + 1)
          (pre.flatMap (listing_fields ec) ++ listing_fields ec l)).1
        = (pre ++ (l :: rest).take m).flatMap (listing_fields ec)
    by_cases h24 : (pre.flatMap (listing_fields ec)).length = 24
    · refine ⟨0, Nat.zero_le _, by simpa using hpre, ?_⟩
      rw [if_pos h24]
      simp
    · rw [if_neg h24]
      by_cases hsz : 6000 < tl + fields_len (pre.flatMap (listing_fields ec)
          ++ listing_fields ec l)
      · refine ⟨0, Nat.zero_le _, by simpa using hpre, ?_⟩
        rw [if_pos hsz]
        show remove_last3 (pre.flatMap (listing_fields ec)
          ++ listing_fields ec l) = _
        rw [remove_last3_append _ _ (listing_fields_length ec l)]
        simp
      · rw [if_neg hsz]
        have hpre7 : pre.length ≤ 7 := by
          rw [hacc] at h24
          omega
        have happ : pre.flatMap (listing_fields ec) ++ listing_fields ec l
            = (pre ++ [l]).flatMap (listing_fields ec) := by
          simp
        rw [happ]
        obtain ⟨m, hm1, hm2, hm3⟩ := ih (i + 1) (pre ++ [l])
          (by rw [List.length_append, List.length_singleton]; omega)
        refine ⟨m + 1, by simpa using Nat.succ_le_succ hm1, ?_, ?_⟩
        · rw [List.length_append, List.length_singleton] at hm2
          omega
        · rw [hm3]
          congr 1
          rw [List.take_succ_cons, List.append_assoc, List.singleton_append]

/-- C10.  For every nonempty input the digest's fields are the fields
of an initial segment of at most eight sorted listings, three fields
per listing: the field count is `3 * k` for some `k ≤ 8` — a multiple
of 3, at most 24 — and every rendered listing appears with all three of
its fields. -/
theorem create_embed_fields_atomic (ec : EmbedCustomization)
    (listings : List Listing) (title : String) (hne : listings ≠ []) :
    ∃ k, k ≤ 8
      ∧ (create_embed ec listings title).fields
          = ((sort_listings listings).take k).flatMap (listing_fields ec)
      ∧ (create_embed ec listings title).fields.length = 3 * k := by
  have hie : listings.isEmpty = false := by
    cases listings with
    | nil => exact absurd rfl hne
    | cons a l => rfl
  obtain ⟨m, hm1, hm2, hm3⟩ := create_embed_loop_shape ec title.length
    (sort_listings listings) 0 [] (by simp)
  rw [List.nil_append] at hm3
  rw [List.flatMap_nil] at hm3
  have hfields : ∀ k, k ≤ (sort_listings listings).length →
      (((sort_listings listings).take k).flatMap (listing_fields ec)).length
        = 3 * k := by
    intro k hk
    rw [flatMap_listing_fields_length, List.length_take]
    omega
  unfold create_embed
  rw [if_neg (by simp [hie])]
  by_cases hrem : listings.length
      - (create_embed_loop ec title.length (sort_listings listings) 0 []).2
      - 1 ≠ 0
  · rw [if_pos hrem]
    by_cases hcap : 5999 < title.length
        + fields_len (create_embed_loop ec title.length
            (sort_listings listings) 0 []).1
        + (footer_caption (listings.length
            - (create_embed_loop ec title.length
                (sort_listings listings) 0 []).2 - 1)).length
    · rw [if_pos hcap]
      show ∃ k, k ≤ 8 ∧ remove_last3 (create_embed_loop ec title.length
          (sort_listings listings) 0 []).1 = _ ∧ (remove_last3
          (create_embed_loop ec title.length
            (sort_listings listings) 0 []).1).length = _
      rw [hm3]
      cases m with
      | zero =>
        refine ⟨0, Nat.zero_le _, ?_, ?_⟩ <;> simp [remove_last3]
      | succ n =>
        have hn : n < (sort_listings listings).length := hm1
        have htk : (sort_listings listings).take (n + 1)
            = (sort_listings listings).take n
              ++ [(sort_listings listings).get ⟨n, hn⟩] := by
          rw [List.take_succ, List.getElem?_eq_getElem hn]
          simp
        refine ⟨n, by omega, ?_, ?_⟩
        · rw [htk, List.flatMap_append,
            remove_last3_append _ _ (by simp [listing_fields])]
        · rw [htk, List.flatMap_append,
            remove_last3_append _ _ (by simp [listing_fields])]
          exact hfields n (Nat.le_of_lt hn)
    · rw [if_neg hcap]
      show ∃ k, k ≤ 8 ∧ (create_embed_loop ec title.length
          (sort_listings listings) 0 []).1 = _ ∧ _
      rw [hm3]
      exact ⟨m, by omega, rfl, hfields m hm1⟩
  · rw [if_neg hrem]
    show ∃ k, k ≤ 8 ∧ (create_embed_loop ec title.length
        (sort_listings listings) 0 []).1 = _ ∧ _
    rw [hm3]
    exact ⟨m, by omega, rfl, hfields m hm1⟩

/-- Witness for C10: the nine concrete listings yield fields of an
initial segment of at most eight listings, three fields each. -/
theorem create_embed_fields_atomic_witness :
    nineListings ≠ ([] : List Listing)
    ∧ ∃ k, k ≤ 8
      ∧ (create_embed sampleEC nineListings "T3").fields
          = ((sort_listings nineListings).take k).flatMap
              (listing_fields sampleEC)
      ∧ (create_embed sampleEC nineListings "T3").fields.length = 3 * k :=
  ⟨by decide,
   create_embed_fields_atomic sampleEC nineListings "T3" (by decide)⟩

/-- A parsed listing element yields a Listing exactly when all of its
numeric fields parse; only the numeric fields can fail. -/
lemma parse_raw_listing_ok_iff (rl : RawListing) :
    (∃ l, parse_raw_listing rl = Except.ok l) ↔ ¬ bad_numeric rl := by
  unfold parse_raw_listing bad_numeric
  cases h1 : ((py_split_slash rl.total_text)[0]?).bind pyInt with
  | none => simp [h1]
  | some filled =>
    cases h2 : ((py_split_slash rl.total_text)[1]?).bind pyInt with
    | none => simp [h1, h2]
    | some total =>
      cases h3 : pyInt rl.value_text with
      | none => simp [h1, h2, h3]
      | some lvl => simp [h1, h2, h3]

/-- The region and category fields of a successfully parsed listing
are the enum value when the tag is recognized and the raw string when
it is not. -/
lemma parse_raw_listing_fields (rl : RawListing) (l : Listing)
    (h : parse_raw_listing rl = Except.ok l) :
    l.data_centre = (match dataCentreOfString rl.data_centre with
      | some dc => DataCentreOrRaw.known dc
      | none => DataCentreOrRaw.raw rl.data_centre)
    ∧ l.pf_category = (match pfCategoryOfString rl.pf_category with
      | some c => PfCategoryOrRaw.known c
      | none => PfCategoryOrRaw.raw rl.pf_category) := by
  unfold parse_raw_listing at h
  cases h1 : ((py_split_slash rl.total_text)[0]?).bind pyInt with
  | none => rw [h1] at h; cases h
  | some filled =>
    rw [h1] at h
    cases h2 : ((py_split_slash rl.total_text)[1]?).bind pyInt with
    | none => rw [h2] at h; cases h
    | some total =>
      rw [h2] at h
      cases h3 : pyInt rl.value_text with
      | none => rw [h3] at h; cases h
      | some lvl =>
        rw [h3] at h
        cases h
        exact ⟨rfl, rfl⟩

/-- A listing with an unparseable numeric field anywhere in the
document makes the whole extraction return an error. -/
lemma scrape_error_of_bad :
    ∀ doc : List RawListing, (∃ rl ∈ doc, bad_numeric rl) →
      ∃ e, scrape_listings_model doc = Except.error e := by
  intro doc
  induction doc with
  | nil =>
    rintro ⟨rl, hm, _⟩
    exact absurd hm (List.not_mem_nil rl)
  | cons d rest ih =>
    rintro ⟨rl, hm, hbad⟩
    show ∃ e, (match parse_raw_listing d with
      | Except.error e => Except.error e
      | Except.ok l =>
        match scrape_listings_model rest with
        | Except.error e => Except.error e
        | Except.ok ls => Except.ok (l :: ls)) = Except.error e
    cases hp : parse_raw_listing d with
    | error e => exact ⟨e, rfl⟩
    | ok l =>
      rcases List.mem_cons.1 hm with rfl | hm'
      · exact absurd hbad ((parse_raw_listing_ok_iff rl).1 ⟨l, hp⟩)
      · obtain ⟨e, he⟩ := ih ⟨rl, hm', hbad⟩
        exact ⟨e, by rw [he]⟩

/-- When every numeric field of every listing parses, extraction
returns one Listing per listing element. -/
lemma scrape_ok_of_good :
    ∀ doc : List RawListing, (∀ rl ∈ doc, ¬ bad_numeric rl) →
      ∃ ls, scrape_listings_model doc = Except.ok ls
        ∧ ls.length = doc.length := by
  intro doc
  induction doc with
  | nil =>
    intro _
    exact ⟨[], rfl, rfl⟩
  | cons d rest ih =>
    intro h
    obtain ⟨l, hl⟩ := (parse_raw_listing_ok_iff d).2
      (h d (List.mem_cons_self d rest))
    obtain ⟨ls, hls, hlen⟩ := ih fun rl hm => h rl (List.mem_cons_of_mem d hm)
    refine ⟨l :: ls, ?_, by simp [hlen]⟩
    show (match parse_raw_listing d with
      | Except.error e => Except.error e
      | Except.ok l =>
        match scrape_listings_model rest with
        | Except.error e => Except.error e
        | Except.ok ls => Except.ok (l :: ls)) = Except.ok (l :: ls)
    rw [hl, hls]

/-- C8.  Extraction fails for the whole document exactly on numeric
parse failures, and tolerates unknown tags: a bad numeric field
anywhere errors the document; with all numerics parseable every listing
is extracted; a listing whose numerics parse always parses, whatever
its region/category/role strings; an unrecognized region or category
tag is kept as the raw string; and an unrecognized role token is kept
as a raw role in the slot's role list while parsing continues. -/
theorem scrape_numeric_fatal_tolerant_raw (doc : List RawListing) :
    ((∃ rl ∈ doc, bad_numeric rl) →
      ∃ e, scrape_listings_model doc = Except.error e)
    ∧ ((∀ rl ∈ doc, ¬ bad_numeric rl) →
      ∃ ls, scrape_listings_model doc = Except.ok ls
        ∧ ls.length = doc.length)
    ∧ (∀ rl ∈ doc, ¬ bad_numeric rl →
      ∃ l, parse_raw_listing rl = Except.ok l)
    ∧ (∀ rl ∈ doc, ∀ l, parse_raw_listing rl = Except.ok l →
        (dataCentreOfString rl.data_centre = none →
          l.data_centre = DataCentreOrRaw.raw rl.data_centre)
        ∧ (pfCategoryOfString rl.pf_category = none →
          l.pf_category = PfCategoryOrRaw.raw rl.pf_category))
    ∧ (∀ rl ∈ doc, ∀ slot ∈ rl.slots, ∀ tok ∈ py_split_ws slot.title_attr,
        roleOfString tok = none →
          RoleOrRaw.raw tok ∈ (parse_slot slot).roles) := by
  refine ⟨scrape_error_of_bad doc, scrape_ok_of_good doc, ?_, ?_, ?_⟩
  · intro rl _ h
    exact (parse_raw_listing_ok_iff rl).2 h
  · intro rl _ l h
    obtain ⟨hdc, hpf⟩ := parse_raw_listing_fields rl l h
    constructor
    · intro hnone
      rw [hdc, hnone]
    · intro hnone
      rw [hpf, hnone]
  · intro rl _ slot _ tok hmem hnone
    show RoleOrRaw.raw tok ∈ (py_split_ws slot.title_attr).map _
    exact List.mem_map.2 ⟨tok, hmem, by rw [hnone]⟩

/-- Witness for C8: a listing element whose counts text has no slash
errors the document, while one with valid numerics but unknown region,
category and role strings extracts fine. -/
theorem scrape_numeric_fatal_tolerant_raw_witness :
    bad_numeric badRawListing
    ∧ (∃ e, scrape_listings_model [badRawListing] = Except.error e)
    ∧ ¬ bad_numeric oddRawListing
    ∧ (∃ ls, scrape_listings_model [oddRawListing] = Except.ok ls
        ∧ ls.length = 1) :=
  ⟨by decide,
   (scrape_numeric_fatal_tolerant_raw [badRawListing]).1
     ⟨badRawListing, List.mem_singleton_self badRawListing, by decide⟩,
   by decide,
   (scrape_numeric_fatal_tolerant_raw [oddRawListing]).2.1
     (by intro rl hm
         rw [List.mem_singleton] at hm
         rw [hm]
         decide)⟩

/-- Witness for C6: an open slot offering SAM (a Dps job) and PLD (a
Tank job) renders the Dps+Tank pair glyph of the sample configuration,
whatever order the two roles appear in. -/
theorem open_slot_dps_tank_pair_witness :
    SlotType.DPS ∈ ([RoleOrRaw.known Role.SAM,
        RoleOrRaw.known Role.PLD]).map RoleOrRaw.get_slot_type
    ∧ get_emoji_by_party_slot sampleEC
        ⟨SlotState.OPEN, SlotType.OTHER,
          [RoleOrRaw.known Role.SAM, RoleOrRaw.known Role.PLD]⟩
      = sampleEC.free_slots.dps_tank :=
  ⟨by decide,
   open_slot_dps_tank_pair sampleEC SlotType.OTHER
     [RoleOrRaw.known Role.SAM, RoleOrRaw.known Role.PLD]
     (by decide) (by decide) (by decide) (by decide)⟩
